import Mathlib

/-!
# Verification of the bible_database Python client (`src/python/bible_db.py`)

Shallow embedding of the `BibleDatabase` class.  Python strings are Lean
`String`s; the string helpers (`strip`, `split(sep, 1)`, `rsplit(sep, 1)`,
`int(...)`, `str.upper`, `str.isidentifier`, `f"{n:0wd}"` formatting) are
modelled on their ASCII fragment, which covers every string the library and
the claims manipulate.  Database state (connection success, query success,
reference tables, verse tables) is an explicit `Db` record; a `mariadb`
cursor call that would raise becomes an `Except` error.
-/

namespace BibleDb

/-! ## Python string primitives (ASCII fragment) -/

/-- The ASCII whitespace characters stripped by Python's `str.strip()`. -/
def pySpace (c : Char) : Bool :=
  c == ' ' || c == '\t' || c == '\n' || c == '\r' || c == '\x0b' || c == '\x0c'

/-- `l` with leading and trailing Python whitespace removed. -/
def pyStripData (l : List Char) : List Char :=
  ((l.dropWhile pySpace).reverse.dropWhile pySpace).reverse

/-- Python `s.strip()` (ASCII whitespace). -/
def pyStrip (s : String) : String := ⟨pyStripData s.data⟩

/-- Split a character list at the first occurrence of `sep`;
`none` when `sep` does not occur. -/
def splitOnce (sep : Char) : List Char → Option (List Char × List Char)
  | [] => none
  | c :: cs =>
    if c = sep then some ([], cs)
    else match splitOnce sep cs with
      | none => none
      | some (a, b) => some (c :: a, b)

/-- Python `s.split(sep, 1)` restricted to the case that matters:
`some (a, b)` when `s = a ++ sep ++ b` splitting at the first `sep`,
`none` when `sep ∉ s` (Python then returns the one-element list `[s]`). -/
def pySplitOnce (s : String) (sep : Char) : Option (String × String) :=
  match splitOnce sep s.data with
  | none => none
  | some (a, b) => some (⟨a⟩, ⟨b⟩)

/-- Python `s.rsplit(sep, 1)`: split at the last occurrence of `sep`;
`none` when `sep ∉ s` (Python then returns the one-element list `[s]`). -/
def pyRSplitOnce (s : String) (sep : Char) : Option (String × String) :=
  match splitOnce sep s.data.reverse with
  | none => none
  | some (a, b) => some (⟨b.reverse⟩, ⟨a.reverse⟩)

/-- Python `sep in s` for a single character. -/
def pyContains (s : String) (sep : Char) : Bool := s.data.contains sep

/-- Numeric value of a decimal digit character (`'0'` ↦ 0, …, `'9'` ↦ 9). -/
def dval (c : Char) : Nat := c.toNat - 48

/-- Value of a big-endian list of decimal digit characters. -/
def digitsVal : List Char → Nat
  | [] => 0
  | c :: cs => dval c * 10 ^ cs.length + digitsVal cs

/-- Python `int(s)` on an already-stripped character list: an optional sign
followed by a nonempty run of decimal digits (ASCII fragment, without the
`_` digit-group separators, which never appear in this library's inputs). -/
def pyIntData : List Char → Option Int
  | '-' :: rest =>
    if !rest.isEmpty && rest.all Char.isDigit then
      some (-(digitsVal rest : Int))
    else none
  | '+' :: rest =>
    if !rest.isEmpty && rest.all Char.isDigit then
      some ((digitsVal rest : Int))
    else none
  | l =>
    if !l.isEmpty && l.all Char.isDigit then
      some ((digitsVal l : Int))
    else none

/-- Python `int(s)`: surrounding whitespace is stripped, then an optional
sign and a nonempty digit run; `none` models the `ValueError`. -/
def pyInt (s : String) : Option Int := pyIntData (pyStrip s).data

/-- The decimal digit character for `d < 10` (and `'9'` above that, a case
never reached since every argument below is some `n % 10`). -/
def digitChar (d : Nat) : Char :=
  match d with
  | 0 => '0' | 1 => '1' | 2 => '2' | 3 => '3' | 4 => '4'
  | 5 => '5' | 6 => '6' | 7 => '7' | 8 => '8' | _ => '9'

/-- The last `w` decimal digits of `n`, zero-padded to exactly `w`
characters. -/
def padNum : Nat → Nat → List Char
  | 0, _ => []
  | w + 1, n => padNum w (n / 10) ++ [digitChar (n % 10)]

/-- Fuel-driven number-of-decimal-digits; `fuel ≥ n` makes it exact. -/
def digLenAux : Nat → Nat → Nat
  | 0, _ => 1
  | fuel + 1, n => if n < 10 then 1 else digLenAux fuel (n / 10) + 1

/-- Number of decimal digits of `n` (1 for `n = 0`). -/
def digLen (n : Nat) : Nat := digLenAux n n

/-- Python `f"{n:0wd}"` for `n ≥ 0`: `n` in decimal, left-padded with `'0'`
to a minimum width `w` (wider numbers print all their digits). -/
def pyFmtNat (w n : Nat) : String := ⟨padNum (max (digLen n) w) n⟩

/-- Python `f"{n:0wd}"` for an `int`: for negative `n` the sign counts
towards the width. -/
def pyFmt (w : Nat) (n : Int) : String :=
  if n < 0 then "-" ++ pyFmtNat (w - 1) n.natAbs else pyFmtNat w n.toNat

/-- Python `s.upper()` (ASCII fragment). -/
def pyUpper (s : String) : String := ⟨s.data.map Char.toUpper⟩

/-- Python `s.isidentifier()` on ASCII strings: nonempty, first character a
letter or `'_'`, remaining characters letters, digits or `'_'`. -/
def pyIsIdentifier (s : String) : Bool :=
  match s.data with
  | [] => false
  | c :: cs => (c.isAlpha || c == '_') && cs.all (fun d => d.isAlphanum || d == '_')

/-! ## Error model

Python exception classes raised by `bible_db.py`: the `ValueError`s it
raises itself (tagged by which `raise` site), and `mariadb.Error` from the
driver. -/

/-- Which `raise ValueError(...)` site fired. -/
inductive ValueErrKind
  | emptyReference
  | invalidFormat
  | bookNotFound
  | translationNotFound
  | invalidTableName
  | intCast
deriving DecidableEq

/-- An exception escaping a `BibleDatabase` method. -/
inductive PyErr
  | valueError : ValueErrKind → PyErr
  | mariadbError : PyErr
deriving DecidableEq

/-! ## The reference parser (`_parse_reference`, lines 297–360) -/

/-- The 8-digit `BBCCCVVV` key string built at the end of
`_parse_reference`: `f"{book:02d}{chapter:03d}{verse:03d}"`. -/
def composite_key (b c v : Int) : String := pyFmt 2 b ++ pyFmt 3 c ++ pyFmt 3 v

/-- Numeric value `BBCCCVVV` of a (book, chapter, verse) triple, used to
state "numerically smaller key". -/
def key_value (b c v : Int) : Int := b * 1000000 + c * 1000 + v

/-- Start side of a range citation: `if ':' in start` split into chapter
and verse, else chapter `'1'` and the stripped side as verse. -/
def rangeStartParts (s : String) : String × String :=
  match pySplitOnce s ':' with
  | some (c, v) => (c, v)
  | none => ("1", pyStrip s)

/-- End side of a range citation: `if ':' in end` split into chapter and
verse, else reuse the start chapter and take the stripped side as verse. -/
def rangeEndParts (start_chapter e : String) : String × String :=
  match pySplitOnce e ':' with
  | some (c, v) => (c, v)
  | none => (start_chapter, pyStrip e)

/-- The four chapter/verse strings `(start_chapter, start_verse,
end_chapter, end_verse)` computed by `_parse_reference` from the
chapter/verse portion of the reference. -/
def citationParts (chapter_verse : String) : String × String × String × String :=
  match pySplitOnce chapter_verse '-' with
  | some (s, e) =>
    let p := rangeStartParts s
    let q := rangeEndParts p.1 e
    (p.1, p.2, q.1, q.2)
  | none =>
    match pySplitOnce chapter_verse ':' with
    | some (c, v) => (pyStrip c, pyStrip v, pyStrip c, pyStrip v)
    | none => ("1", pyStrip chapter_verse, "1", pyStrip chapter_verse)

/-- The citation half of `_parse_reference`: everything after the book
number has been resolved.  `int(...)` failures become the `intCast`
`ValueError`. -/
def parse_citation (book_number : Int) (chapter_verse : String) :
    Except PyErr (String × String) :=
  match citationParts chapter_verse with
  | (sc, sv, ec, ev) =>
    match pyInt sc, pyInt sv, pyInt ec, pyInt ev with
    | some c1, some v1, some c2, some v2 =>
      .ok (composite_key book_number c1 v1, composite_key book_number c2 v2)
    | _, _, _, _ => .error (.valueError .intCast)

/-! ## Database model

The `BibleDatabase` instance together with the MariaDB server it talks to,
reduced to what the methods can observe: whether `connect()` succeeds,
whether cursor queries raise, and the contents of the reference and verse
tables. -/

/-- A row of `bible_version_key` (the columns the code reads). -/
structure TranslationRow where
  abbreviation : String
  table : String
deriving DecidableEq

/-- A row of a per-translation verse table `t_xxx` (columns `id, c, v, t`). -/
structure VerseRow where
  id : String
  c : Int
  v : Int
  t : String
deriving DecidableEq

/-- A row of the result set `SELECT c AS chapter, v AS verse, t AS text`. -/
structure VerseResult where
  chapter : Int
  verse : Int
  text : String
deriving DecidableEq

/-- Client + server state visible to one `BibleDatabase` call. -/
structure Db where
  /-- `connect()` succeeds (otherwise it raises `mariadb.Error`). -/
  connectOk : Bool
  /-- `cursor.execute(...)` raises `mariadb.Error`. -/
  queryFails : Bool
  /-- Rows of `bible_version_key`. -/
  versionRows : List TranslationRow
  /-- Rows `(a, b)` of `key_abbreviations_english`. -/
  bookIndex : List (String × Int)
  /-- The verse table for each table name. -/
  tables : String → List VerseRow

/-- Bytewise lexicographic `<` on character lists, the order MariaDB uses
to evaluate `id >= ? AND id <= ?` on the 8-digit key strings. -/
def listLtb : List Char → List Char → Bool
  | [], [] => false
  | [], _ :: _ => true
  | _ :: _, [] => false
  | a :: as, b :: bs =>
    if a < b then true else if b < a then false else listLtb as bs

/-- Lexicographic `≤` on strings, used for the SQL `BETWEEN`-style bounds. -/
def strLeb (s t : String) : Bool := !(listLtb t.data s.data)

/-- A decimal digit character (codepoint between `'0'` and `'9'`). -/
def IsDigitChar (c : Char) : Prop := 48 ≤ c.toNat ∧ c.toNat ≤ 57

/-! ## BibleDatabase methods -/

/-- `ensure_connected` (lines 97–112): connect on demand; a failed
connection attempt surfaces the driver's `mariadb.Error`. -/
def ensure_connected (db : Db) : Except PyErr Unit :=
  if db.connectOk then .ok () else .error .mariadbError

/-- `get_cursor` (lines 134–147): ensure the connection and hand out the
cursor (the cursor itself carries no state we model). -/
def get_cursor (db : Db) : Except PyErr Unit :=
  ensure_connected db

/-- `_get_book_from_name` (lines 259–276): look the stripped book token up
in `key_abbreviations_english`; an empty result is the `BookNotFound`
`ValueError`, a driver failure propagates as `mariadb.Error`. -/
def _get_book_from_name (db : Db) (book_name : String) : Except PyErr Int :=
  match get_cursor db with
  | .error e => .error e
  | .ok _ =>
    if db.queryFails then .error .mariadbError
    else match db.bookIndex.find? (fun p => p.1 == book_name) with
      | some p => .ok p.2
      | none => .error (.valueError .bookNotFound)

/-- `_parse_reference` (lines 297–360): split the reference at the last
space, resolve the book, then build the two composite keys. -/
def _parse_reference (db : Db) (ref : String) : Except PyErr (String × String) :=
  match pyRSplitOnce ref ' ' with
  | none => .error (.valueError .invalidFormat)
  | some (p0, p1) =>
    let book := pyStrip p0
    let chapter_verse := pyStrip p1
    match _get_book_from_name db book with
    | .error e => .error e
    | .ok book_number => parse_citation book_number chapter_verse

/-- `get_verses` (lines 149–222).  Order of effects follows the source:
`ensure_connected`, the empty-reference check, `_parse_reference` (which
resolves the book), the translation-table lookup on the uppercased code,
the identifier check on the resolved table name, then the bounded range
query. -/
def get_verses (db : Db) (ref : String) (translation : String := "WEB") :
    Except PyErr (List VerseResult) :=
  match ensure_connected db with
  | .error e => .error e
  | .ok _ =>
    if ref = "" then .error (.valueError .emptyReference)
    else match _parse_reference db ref with
    | .error e => .error e
    | .ok (start_ref, end_ref) =>
      let translation := pyUpper translation
      match get_cursor db with
      | .error e => .error e
      | .ok _ =>
        if db.queryFails then .error .mariadbError
        else match db.versionRows.find? (fun r => r.abbreviation == translation) with
        | none => .error (.valueError .translationNotFound)
        | some row =>
          let table_name := row.table
          if !pyIsIdentifier table_name then .error (.valueError .invalidTableName)
          else if db.queryFails then .error .mariadbError
          else .ok (((db.tables table_name).filter
              (fun r => strLeb start_ref r.id && strLeb r.id end_ref)).map
              (fun r => ⟨r.c, r.v, r.t⟩))

/-- `get_available_translations` (lines 114–132): `SELECT * FROM
bible_version_key` inside `try/except mariadb.Error`; a driver error (from
connecting or querying) is swallowed into an empty list, anything else
would propagate. -/
def get_available_translations (db : Db) : Except PyErr (List TranslationRow) :=
  let attempt : Except PyErr (List TranslationRow) :=
    match get_cursor db with
    | .error e => .error e
    | .ok _ =>
      if db.queryFails then .error .mariadbError
      else .ok db.versionRows
  match attempt with
  | .error .mariadbError => .ok []
  | .error e => .error e
  | .ok rows => .ok rows

/-! ## Concrete database states used by counterexamples and witnesses -/

/-- A reachable server with empty reference tables. -/
def dbNoBooks : Db :=
  { connectOk := true, queryFails := false, versionRows := [],
    bookIndex := [], tables := fun _ => [] }

/-- A server whose connection attempt fails. -/
def dbDown : Db :=
  { connectOk := false, queryFails := false, versionRows := [],
    bookIndex := [], tables := fun _ => [] }

/-- A reachable server that maps translation `WEB` to table `tn`,
knows the book `John`, and has one verse row in every table. -/
def dbTable (tn : String) : Db :=
  { connectOk := true, queryFails := false,
    versionRows := [{ abbreviation := "WEB", table := tn }],
    bookIndex := [("John", 43)],
    tables := fun _ => [{ id := "43003016", c := 3, v := 16, t := "For God so loved the world" }] }

/-! ## Lemmas about the string primitives -/

theorem splitOnce_eq_none {sep : Char} {l : List Char}
    (h : l.contains sep = false) : splitOnce sep l = none := by
  induction l with
  | nil => rfl
  | cons c cs ih =>
    rw [List.contains_cons] at h
    simp only [Bool.or_eq_false_iff, beq_eq_false_iff_ne, ne_eq] at h
    unfold splitOnce
    rw [if_neg (fun hc => h.1 hc.symm), ih h.2]

theorem pySplitOnce_eq_none {s : String} {sep : Char}
    (h : pyContains s sep = false) : pySplitOnce s sep = none := by
  unfold pyContains at h
  unfold pySplitOnce
  rw [splitOnce_eq_none h]

theorem contains_reverse (sep : Char) (l : List Char) :
    l.reverse.contains sep = l.contains sep := by
  rw [Bool.eq_iff_iff]
  simp only [List.contains, List.elem_iff, List.mem_reverse]

theorem pyRSplitOnce_eq_none {s : String} {sep : Char}
    (h : pyContains s sep = false) : pyRSplitOnce s sep = none := by
  unfold pyContains at h
  unfold pyRSplitOnce
  rw [splitOnce_eq_none (by rw [contains_reverse]; exact h)]

/-! ## Lemmas about the citation parser -/

theorem citationParts_range {cv st en : String}
    (hsplit : pySplitOnce cv '-' = some (st, en)) :
    citationParts cv =
      ((rangeStartParts st).1, (rangeStartParts st).2,
       (rangeEndParts (rangeStartParts st).1 en).1,
       (rangeEndParts (rangeStartParts st).1 en).2) := by
  unfold citationParts
  rw [hsplit]

theorem rangeStartParts_colon {st sc sv : String}
    (h : pySplitOnce st ':' = some (sc, sv)) : rangeStartParts st = (sc, sv) := by
  unfold rangeStartParts
  rw [h]

theorem rangeEndParts_colon {c en ec ev : String}
    (h : pySplitOnce en ':' = some (ec, ev)) : rangeEndParts c en = (ec, ev) := by
  unfold rangeEndParts
  rw [h]

theorem rangeEndParts_no_colon {c en : String}
    (h : pySplitOnce en ':' = none) : rangeEndParts c en = (c, pyStrip en) := by
  unfold rangeEndParts
  rw [h]

theorem parse_citation_of_parts {b : Int} {cv sc sv ec ev : String}
    {c1 v1 c2 v2 : Int}
    (h : citationParts cv = (sc, sv, ec, ev))
    (h1 : pyInt sc = some c1) (h2 : pyInt sv = some v1)
    (h3 : pyInt ec = some c2) (h4 : pyInt ev = some v2) :
    parse_citation b cv = .ok (composite_key b c1 v1, composite_key b c2 v2) := by
  unfold parse_citation
  rw [h]
  simp only [h1, h2, h3, h4]

/-! ## Claims about the parser -/

/-- C1: for every book number in [1, 99] and every citation without `'-'`,
`_parse_reference` returns equal start and end keys, built as the 2-digit
book, 3-digit chapter and 3-digit verse concatenation; with a `':'` the
chapter and verse come from the two sides of the first `':'`, without one
the chapter defaults to 1 (digits `"001"`) and the whole citation is the
verse. -/
theorem c1_parse_single_verse (b : Int) (hb1 : 1 ≤ b) (hb2 : b ≤ 99)
    (cv : String) (hnr : pyContains cv '-' = false) :
    (∀ c v ci vi, pySplitOnce cv ':' = some (c, v) →
        pyInt (pyStrip c) = some ci → pyInt (pyStrip v) = some vi →
        parse_citation b cv = .ok (composite_key b ci vi, composite_key b ci vi))
    ∧ (∀ vi, pySplitOnce cv ':' = none → pyInt (pyStrip cv) = some vi →
        parse_citation b cv = .ok (composite_key b 1 vi, composite_key b 1 vi)) := by
  have hsplit : pySplitOnce cv '-' = none := pySplitOnce_eq_none hnr
  constructor
  · intro c v ci vi hcv hci hvi
    unfold parse_citation citationParts
    rw [hsplit, hcv]
    simp only [hci, hvi]
  · intro vi hnone hvi
    unfold parse_citation citationParts
    rw [hsplit, hnone]
    simp only [hvi]
    rfl

/-- Witness for C1 at the spec's concrete scenarios `parse(43, "3:16")`
and `parse(65, "5")`. -/
theorem c1_parse_single_verse_witness :
    parse_citation 43 "3:16" = .ok ("43003016", "43003016") ∧
    parse_citation 65 "5" = .ok ("65001005", "65001005") :=
  ⟨(c1_parse_single_verse 43 (by decide) (by decide) "3:16" (by rfl)).1
      "3" "16" 3 16 (by rfl) (by rfl) (by rfl),
   (c1_parse_single_verse 65 (by decide) (by decide) "5" (by rfl)).2
      5 (by rfl) (by rfl)⟩

/-- C2: for every range citation — with `(sc, sv)` the start side's
chapter and verse strings as the code computes them (`rangeStartParts`:
the side's own `':'` split when present, chapter `'1'` otherwise) — the
end key's chapter comes from the end side's own `':'` when present and
otherwise reuses the start side's chapter (not 1); the end verse comes
from the end side. -/
theorem c2_parse_range_end_chapter (b : Int) (cv st en sc sv : String)
    (c1 v1 : Int)
    (hsplit : pySplitOnce cv '-' = some (st, en))
    (hstart : rangeStartParts st = (sc, sv))
    (hc1 : pyInt sc = some c1) (hv1 : pyInt sv = some v1) :
    (∀ ec ev c2 v2, pySplitOnce en ':' = some (ec, ev) →
        pyInt ec = some c2 → pyInt ev = some v2 →
        parse_citation b cv = .ok (composite_key b c1 v1, composite_key b c2 v2))
    ∧ (∀ v2, pySplitOnce en ':' = none → pyInt (pyStrip en) = some v2 →
        parse_citation b cv = .ok (composite_key b c1 v1, composite_key b c1 v2)) := by
  have hparts := citationParts_range hsplit
  rw [hstart] at hparts
  constructor
  · intro ec ev c2 v2 hend hc2 hv2
    rw [rangeEndParts_colon hend] at hparts
    exact parse_citation_of_parts hparts hc1 hv1 hc2 hv2
  · intro v2 hend hv2
    rw [rangeEndParts_no_colon hend] at hparts
    exact parse_citation_of_parts hparts hc1 hv1 hc1 hv2

/-- Witness for C2 at the spec's concrete scenarios `parse(43, "3:16-18")`
and `parse(43, "3:16-4:3")`, plus the chapterless-start range
`parse(65, "13-15")` (Jude-style, start chapter defaulting to 1 and the
end side reusing it). -/
theorem c2_parse_range_end_chapter_witness :
    parse_citation 43 "3:16-18" = .ok ("43003016", "43003018") ∧
    parse_citation 43 "3:16-4:3" = .ok ("43003016", "43004003") ∧
    parse_citation 65 "13-15" = .ok ("65001013", "65001015") :=
  ⟨(c2_parse_range_end_chapter 43 "3:16-18" "3:16" "18" "3" "16" 3 16
      (by rfl) (by rfl) (by rfl) (by rfl)).2 18 (by rfl) (by rfl),
   (c2_parse_range_end_chapter 43 "3:16-4:3" "3:16" "4:3" "3" "16" 3 16
      (by rfl) (by rfl) (by rfl) (by rfl)).1 "4" "3" 4 3 (by rfl) (by rfl) (by rfl),
   (c2_parse_range_end_chapter 65 "13-15" "13" "15" "1" "13" 1 13
      (by rfl) (by rfl) (by rfl) (by rfl)).2 15 (by rfl) (by rfl)⟩

/-- C8: a range citation — either start-side shape, `(sc, sv)` being the
start chapter/verse strings the code computes (`rangeStartParts`) — whose
end key is numerically smaller than its start key is returned exactly as
parsed: same pair order, no error, no reordering; the parser performs no
ordering check. -/
theorem c8_reversed_range (b : Int) (cv st en sc sv : String) (c1 v1 : Int)
    (hsplit : pySplitOnce cv '-' = some (st, en))
    (hstart : rangeStartParts st = (sc, sv))
    (hc1 : pyInt sc = some c1) (hv1 : pyInt sv = some v1) :
    (∀ ec ev c2 v2, pySplitOnce en ':' = some (ec, ev) →
        pyInt ec = some c2 → pyInt ev = some v2 →
        key_value b c2 v2 < key_value b c1 v1 →
        parse_citation b cv = .ok (composite_key b c1 v1, composite_key b c2 v2))
    ∧ (∀ v2, pySplitOnce en ':' = none → pyInt (pyStrip en) = some v2 →
        key_value b c1 v2 < key_value b c1 v1 →
        parse_citation b cv = .ok (composite_key b c1 v1, composite_key b c1 v2)) := by
  have hparts := citationParts_range hsplit
  rw [hstart] at hparts
  constructor
  · intro ec ev c2 v2 hend hc2 hv2 _
    rw [rangeEndParts_colon hend] at hparts
    exact parse_citation_of_parts hparts hc1 hv1 hc2 hv2
  · intro v2 hend hv2 _
    rw [rangeEndParts_no_colon hend] at hparts
    exact parse_citation_of_parts hparts hc1 hv1 hc1 hv2

/-- Witness for C8: the reversed range `parse(43, "4:3-3:16")` comes back
with end key `43003016 <` start key `43004003`, and the reversed
chapterless-start range `parse(65, "13-5")` with end key `65001005 <`
start key `65001013` — both unreordered and without error. -/
theorem c8_reversed_range_witness :
    parse_citation 43 "4:3-3:16" = .ok ("43004003", "43003016") ∧
    parse_citation 65 "13-5" = .ok ("65001013", "65001005") :=
  ⟨(c8_reversed_range 43 "4:3-3:16" "4:3" "3:16" "4" "3" 4 3
      (by rfl) (by rfl) (by rfl) (by rfl)).1 "3" "16" 3 16
      (by rfl) (by rfl) (by rfl) (by decide),
   (c8_reversed_range 65 "13-5" "13" "5" "1" "13" 1 13
      (by rfl) (by rfl) (by rfl) (by rfl)).2 5 (by rfl) (by rfl) (by decide)⟩

/-! ## Claims about the service operations -/

theorem ensure_connected_ok {db : Db} (h : db.connectOk = true) :
    ensure_connected db = .ok () := by
  unfold ensure_connected
  simp [h]

theorem get_cursor_ok {db : Db} (h : db.connectOk = true) :
    get_cursor db = .ok () := by
  unfold get_cursor
  exact ensure_connected_ok h

/-- Helper: the fully-resolved path of `get_verses`, with every lookup
pinned by a hypothesis, up to the table-name identifier check. -/
theorem get_verses_resolved (db : Db) (ref tr p0 p1 s e : String) (bn : Int)
    (row : TranslationRow)
    (hconn : db.connectOk = true) (hq : db.queryFails = false) (hne : ref ≠ "")
    (hsplit : pyRSplitOnce ref ' ' = some (p0, p1))
    (hbook : _get_book_from_name db (pyStrip p0) = .ok bn)
    (hparse : parse_citation bn (pyStrip p1) = .ok (s, e))
    (hrow : db.versionRows.find? (fun r => r.abbreviation == pyUpper tr) = some row) :
    get_verses db ref tr =
      if pyIsIdentifier row.table then
        .ok (((db.tables row.table).filter
            (fun r => strLeb s r.id && strLeb r.id e)).map (fun r => ⟨r.c, r.v, r.t⟩))
      else .error (.valueError .invalidTableName) := by
  unfold get_verses _parse_reference
  rw [ensure_connected_ok hconn, if_neg hne, hsplit]
  simp only [get_cursor_ok hconn, hbook, hparse, hrow, hq, Bool.false_eq_true,
    if_false]
  cases hid : pyIsIdentifier row.table <;> simp [hid]

/-- C3 counterexample: a whitespace-only (blank but nonempty) reference is
not caught by the emptiness check — `" "` reaches book resolution and
fails with `BookNotFound`, not `EmptyReference`. -/
theorem c3_blank_reference_counterexample :
    get_verses dbNoBooks " " "WEB" = .error (.valueError .bookNotFound) ∧
    ValueErrKind.bookNotFound ≠ ValueErrKind.emptyReference :=
  ⟨by rfl, by decide⟩

/-- C3 amended: only the empty string is rejected as `EmptyReference`; for
`ref = ""` (once the connection is up) no book resolution, translation
resolution or range query is performed, whatever the database holds. -/
theorem c3_empty_reference (db : Db) (translation : String)
    (hconn : db.connectOk = true) :
    get_verses db "" translation = .error (.valueError .emptyReference) := by
  unfold get_verses ensure_connected
  rw [hconn]
  simp

/-- Witness for C3's amended theorem at a concrete database. -/
theorem c3_empty_reference_witness :
    get_verses dbNoBooks "" "WEB" = .error (.valueError .emptyReference) :=
  c3_empty_reference dbNoBooks "WEB" rfl

/-- C4 counterexample: `"1web"` consists only of alphanumeric characters,
yet the resolved table name is rejected with `InvalidTableName`, because
the code's check is `str.isidentifier`, which refuses a leading digit. -/
theorem c4_table_identifier_counterexample :
    ("1web" : String).data.all (fun c => c.isAlphanum || c == '_') = true ∧
    get_verses (dbTable "1web") "John 3:16" "WEB" =
      .error (.valueError .invalidTableName) :=
  ⟨by rfl, by rfl⟩

/-- C4 amended: the resolved table identifier is accepted exactly when it
is a Python identifier — nonempty, starting with a letter or underscore,
continuing with alphanumerics/underscores; when it passes, the range query
is issued and its rows are returned. -/
theorem c4_table_identifier (tn : String) :
    get_verses (dbTable tn) "John 3:16" "WEB" =
      if pyIsIdentifier tn then
        .ok [{ chapter := 3, verse := 16, text := "For God so loved the world" }]
      else .error (.valueError .invalidTableName) := by
  have h := get_verses_resolved (dbTable tn) "John 3:16" "WEB" "John" "3:16"
      "43003016" "43003016" 43 ⟨"WEB", tn⟩ rfl rfl (by decide)
      (by rfl) (by rfl) (by rfl) (by rfl)
  rw [h]
  by_cases hid : pyIsIdentifier tn
  · rw [if_pos hid, if_pos hid]
    rfl
  · rw [if_neg hid, if_neg hid]

/-- C5: `get_available_translations` is fail-soft — any `mariadb.Error`
(connection or query failure) is swallowed into an empty list; on success
it returns all rows of `bible_version_key`. -/
theorem c5_translations_fail_soft (db : Db) :
    ((db.connectOk = false ∨ db.queryFails = true) →
        get_available_translations db = .ok [])
    ∧ (db.connectOk = true → db.queryFails = false →
        get_available_translations db = .ok db.versionRows) := by
  unfold get_available_translations get_cursor ensure_connected
  constructor
  · rintro (h | h)
    · rw [h]
      simp
    · cases hc : db.connectOk <;> simp [h]
  · intro hc hq
    rw [hc, hq]
    simp

/-- Witness for C5: a failed connection and a failing query each yield the
empty list; a healthy database yields its directory rows. -/
theorem c5_translations_fail_soft_witness :
    get_available_translations dbDown = .ok [] ∧
    get_available_translations (dbTable "t_web") =
      .ok [{ abbreviation := "WEB", table := "t_web" }] :=
  ⟨(c5_translations_fail_soft dbDown).1 (Or.inl rfl),
   (c5_translations_fail_soft (dbTable "t_web")).2 rfl rfl⟩

/-- C7: a nonempty reference with no space cannot be split into book and
citation, so `get_verses` fails with `InvalidFormat` before any lookup —
the conclusion holds for every database state with a live connection. -/
theorem c7_no_space_invalid_format (db : Db) (ref translation : String)
    (hconn : db.connectOk = true) (hne : ref ≠ "")
    (hns : pyContains ref ' ' = false) :
    get_verses db ref translation = .error (.valueError .invalidFormat) := by
  have hr : pyRSplitOnce ref ' ' = none := pyRSplitOnce_eq_none hns
  unfold get_verses _parse_reference
  rw [ensure_connected_ok hconn, if_neg hne, hr]

/-- Witness for C7 at the spec's scenario `getVerses("NotASpaceDelimitedToken")`. -/
theorem c7_no_space_invalid_format_witness :
    get_verses dbNoBooks "NotASpaceDelimitedToken" "WEB" =
      .error (.valueError .invalidFormat) :=
  c7_no_space_invalid_format dbNoBooks "NotASpaceDelimitedToken" "WEB"
    rfl (by decide) (by rfl)

/-- C9: omitting the translation argument is the same call as passing
`"WEB"` — the parameter's default value. -/
theorem c9_default_translation (db : Db) (ref : String) :
    get_verses db ref = get_verses db ref "WEB" := rfl

/-- C10: `get_verses` runs `ensure_connected` before validating its
inputs: when the connection attempt fails, every reference — including the
empty string — yields the `mariadb.Error`, not `EmptyReference` or
`InvalidFormat`. -/
theorem c10_connect_before_validation (db : Db) (ref translation : String)
    (hconn : db.connectOk = false) :
    get_verses db ref translation = .error .mariadbError := by
  unfold get_verses ensure_connected
  rw [hconn]
  simp

/-- Witness for C10: the empty reference surfaces the connection error. -/
theorem c10_connect_before_validation_witness :
    get_verses dbDown "" "WEB" = .error .mariadbError :=
  c10_connect_before_validation dbDown "" "WEB" rfl

/-! ## Digit strings: lexicographic order equals numeric order (for C6) -/

theorem padNum_length (w n : Nat) : (padNum w n).length = w := by
  induction w generalizing n with
  | zero => rfl
  | succ w ih => simp [padNum, ih]

theorem digitChar_toNat {d : Nat} (h : d < 10) : (digitChar d).toNat = 48 + d := by
  interval_cases d <;> rfl

theorem padNum_digits (w n : Nat) : ∀ c ∈ padNum w n, IsDigitChar c := by
  induction w generalizing n with
  | zero => intro c hc; cases hc
  | succ w ih =>
    intro c hc
    rw [padNum, List.mem_append] at hc
    rcases hc with hc | hc
    · exact ih _ c hc
    · rw [List.mem_singleton] at hc
      subst hc
      have h10 : n % 10 < 10 := Nat.mod_lt _ (by norm_num)
      constructor <;> rw [digitChar_toNat h10] <;> omega

theorem dval_digitChar {d : Nat} (h : d < 10) : dval (digitChar d) = d := by
  unfold dval
  rw [digitChar_toNat h]
  omega

theorem digitsVal_singleton (c : Char) : digitsVal [c] = dval c := by
  simp [digitsVal]

theorem digitsVal_append (l1 l2 : List Char) :
    digitsVal (l1 ++ l2) = digitsVal l1 * 10 ^ l2.length + digitsVal l2 := by
  induction l1 with
  | nil => simp [digitsVal]
  | cons c l1 ih =>
    rw [List.cons_append]
    show dval c * 10 ^ (l1 ++ l2).length + digitsVal (l1 ++ l2) =
      (dval c * 10 ^ l1.length + digitsVal l1) * 10 ^ l2.length + digitsVal l2
    rw [ih, List.length_append]
    ring

theorem digitsVal_padNum (w n : Nat) : digitsVal (padNum w n) = n % 10 ^ w := by
  induction w generalizing n with
  | zero =>
    simp [padNum, digitsVal, Nat.mod_one]
  | succ w ih =>
    rw [padNum, digitsVal_append, ih, digitsVal_singleton,
      dval_digitChar (Nat.mod_lt _ (by norm_num)),
      show ([digitChar (n % 10)].length) = 1 from rfl, pow_one,
      show (10 : Nat) ^ (w + 1) = 10 * 10 ^ w from by ring, Nat.mod_mul]
    omega

theorem digitsVal_lt (l : List Char) (h : ∀ c ∈ l, IsDigitChar c) :
    digitsVal l < 10 ^ l.length := by
  induction l with
  | nil => simp [digitsVal]
  | cons c l ih =>
    have hc := h c (List.mem_cons_self c l)
    unfold IsDigitChar at hc
    have hd : dval c ≤ 9 := by unfold dval; omega
    have hl := ih (fun d hd => h d (List.mem_cons_of_mem c hd))
    simp only [digitsVal, List.length_cons]
    have hX : dval c * 10 ^ l.length ≤ 9 * 10 ^ l.length :=
      Nat.mul_le_mul_right _ hd
    have hpow : (10 : Nat) ^ (l.length + 1) = 10 * 10 ^ l.length := by ring
    omega

theorem char_lt_iff_dval {a b : Char} (ha : IsDigitChar a) (hb : IsDigitChar b) :
    a < b ↔ dval a < dval b := by
  have h : a < b ↔ a.toNat < b.toNat := Iff.rfl
  rw [h]
  unfold dval
  unfold IsDigitChar at ha hb
  omega

/-- Positional comparison: with both low parts below the radix power `X`,
the weighted sums compare exactly as the (high, low) pairs do. -/
theorem pos_order_iff {A B x y X : Nat} (hx : x < X) (hy : y < X) :
    (A < B ∨ (A = B ∧ x < y)) ↔ A * X + x < B * X + y := by
  constructor
  · rintro (h | ⟨h1, h2⟩)
    · have h' : (A + 1) * X ≤ B * X := Nat.mul_le_mul_right X (Nat.succ_le_of_lt h)
      have hexp : (A + 1) * X = A * X + X := by ring
      omega
    · subst h1
      omega
  · intro h
    rcases Nat.lt_trichotomy A B with ht | ht | ht
    · exact Or.inl ht
    · subst ht
      exact Or.inr ⟨rfl, by omega⟩
    · exfalso
      have h' : (B + 1) * X ≤ A * X := Nat.mul_le_mul_right X (Nat.succ_le_of_lt ht)
      have hexp : (B + 1) * X = B * X + X := by ring
      omega

theorem list_lt_cons_iff {a b : Char} {as bs : List Char} :
    List.lt (a :: as) (b :: bs) ↔
      a < b ∨ (¬a < b ∧ ¬b < a ∧ List.lt as bs) := by
  constructor
  · intro h
    cases h with
    | head _ _ h => exact Or.inl h
    | tail h1 h2 h3 => exact Or.inr ⟨h1, h2, h3⟩
  · rintro (h | ⟨h1, h2, h3⟩)
    · exact List.lt.head _ _ h
    · exact List.lt.tail h1 h2 h3

theorem list_lt_iff_digitsVal_lt :
    ∀ l1 l2 : List Char, l1.length = l2.length →
      (∀ c ∈ l1, IsDigitChar c) → (∀ c ∈ l2, IsDigitChar c) →
      (List.lt l1 l2 ↔ digitsVal l1 < digitsVal l2)
  | [], [], _, _, _ => by
    constructor
    · intro h; cases h
    · intro h; simp [digitsVal] at h
  | [], b :: bs, hlen, _, _ => by simp at hlen
  | a :: as, [], hlen, _, _ => by simp at hlen
  | a :: as, b :: bs, hlen, h1, h2 => by
    have ha := h1 a (List.mem_cons_self a as)
    have hb := h2 b (List.mem_cons_self b bs)
    have hlen' : as.length = bs.length := by simpa using hlen
    have ih := list_lt_iff_digitsVal_lt as bs hlen'
      (fun c hc => h1 c (List.mem_cons_of_mem a hc))
      (fun c hc => h2 c (List.mem_cons_of_mem b hc))
    rw [list_lt_cons_iff, ih, char_lt_iff_dval ha hb, char_lt_iff_dval hb ha]
    have hvas := digitsVal_lt as (fun c hc => h1 c (List.mem_cons_of_mem a hc))
    have hvbs := digitsVal_lt bs (fun c hc => h2 c (List.mem_cons_of_mem b hc))
    rw [hlen'] at hvas
    have key := pos_order_iff (A := dval a) (B := dval b)
      (X := 10 ^ bs.length) hvas hvbs
    simp only [digitsVal, hlen']
    constructor
    · rintro (h | ⟨h1', h2', h3'⟩)
      · exact key.mp (Or.inl h)
      · exact key.mp (Or.inr ⟨by omega, h3'⟩)
    · intro h
      rcases key.mpr h with h' | ⟨h1', h2'⟩
      · exact Or.inl h'
      · exact Or.inr ⟨by omega, by omega, h2'⟩

/-! ## The composite key as a digit string -/

theorem digLenAux_le {fuel n w : Nat} (hf : n ≤ fuel) (hw : 1 ≤ w)
    (h : n < 10 ^ w) : digLenAux fuel n ≤ w := by
  induction fuel generalizing n w with
  | zero =>
    unfold digLenAux
    exact hw
  | succ f ih =>
    unfold digLenAux
    split
    · exact hw
    · rename_i h10
      push_neg at h10
      obtain ⟨w', rfl⟩ : ∃ w', w = w' + 1 := ⟨w - 1, by omega⟩
      have hw2 : 1 ≤ w' := by
        rcases Nat.eq_zero_or_pos w' with h0 | h0
        · subst h0; simp at h; omega
        · exact h0
      have hdiv : n / 10 < 10 ^ w' := by
        rw [Nat.div_lt_iff_lt_mul (by norm_num : (0 : Nat) < 10)]
        calc n < 10 ^ (w' + 1) := h
          _ = 10 ^ w' * 10 := by ring
      have := ih (by omega : n / 10 ≤ f) hw2 hdiv
      omega

theorem digLen_le {n w : Nat} (hw : 1 ≤ w) (h : n < 10 ^ w) : digLen n ≤ w :=
  digLenAux_le le_rfl hw h

theorem pyFmtNat_eq_padNum {w n : Nat} (hw : 1 ≤ w) (h : n < 10 ^ w) :
    pyFmtNat w n = ⟨padNum w n⟩ := by
  unfold pyFmtNat
  rw [Nat.max_eq_right (digLen_le hw h)]

theorem pyFmt_natCast_data {w n : Nat} (hw : 1 ≤ w) (h : n < 10 ^ w) :
    (pyFmt w (n : Int)).data = padNum w n := by
  unfold pyFmt
  rw [if_neg (by exact not_lt.mpr (Int.natCast_nonneg n)), Int.toNat_natCast,
    pyFmtNat_eq_padNum hw h]

theorem composite_key_data {b c v : Nat} (hb : b ≤ 99) (hc : c ≤ 999)
    (hv : v ≤ 999) :
    (composite_key (b : Int) (c : Int) (v : Int)).data =
      padNum 2 b ++ (padNum 3 c ++ padNum 3 v) := by
  unfold composite_key
  rw [String.data_append, String.data_append,
    pyFmt_natCast_data (by norm_num) (by omega : b < 10 ^ 2),
    pyFmt_natCast_data (by norm_num) (by omega : c < 10 ^ 3),
    pyFmt_natCast_data (by norm_num) (by omega : v < 10 ^ 3),
    List.append_assoc]

theorem composite_key_val {b c v : Nat} (hb : b ≤ 99) (hc : c ≤ 999)
    (hv : v ≤ 999) :
    digitsVal (composite_key (b : Int) (c : Int) (v : Int)).data =
      b * 1000000 + c * 1000 + v := by
  rw [composite_key_data hb hc hv, digitsVal_append, digitsVal_append]
  simp only [List.length_append, padNum_length, digitsVal_padNum]
  rw [Nat.mod_eq_of_lt (by omega : b < 10 ^ 2),
    Nat.mod_eq_of_lt (by omega : c < 10 ^ 3),
    Nat.mod_eq_of_lt (by omega : v < 10 ^ 3)]
  norm_num
  ring

theorem composite_key_digits {b c v : Nat} (hb : b ≤ 99) (hc : c ≤ 999)
    (hv : v ≤ 999) :
    ∀ ch ∈ (composite_key (b : Int) (c : Int) (v : Int)).data, IsDigitChar ch := by
  rw [composite_key_data hb hc hv]
  intro ch hch
  rw [List.mem_append, List.mem_append] at hch
  rcases hch with h | h | h
  · exact padNum_digits 2 b ch h
  · exact padNum_digits 3 c ch h
  · exact padNum_digits 3 v ch h

theorem composite_key_length {b c v : Nat} (hb : b ≤ 99) (hc : c ≤ 999)
    (hv : v ≤ 999) :
    (composite_key (b : Int) (c : Int) (v : Int)).data.length = 8 := by
  rw [composite_key_data hb hc hv]
  simp [padNum_length]

theorem string_le_iff_not_lt (s t : String) :
    s ≤ t ↔ ¬ List.lt t.data s.data := by
  have h1 : s ≤ t ↔ ¬ t < s := Iff.rfl
  have h2 : t < s ↔ List.lt t.data s.data :=
    String.lt_iff_toList_lt.trans (List.lt_iff_lex_lt t.data s.data).symm
  rw [h1, h2]

/-- C6: for books in [1, 99] and chapters/verses in [0, 999],
lexicographic string order on the zero-padded 8-character composite keys
coincides with numeric lexicographic order on the (book, chapter, verse)
triples. -/
theorem c6_key_order (b1 c1 v1 b2 c2 v2 : Nat)
    (hb1 : 1 ≤ b1) (hb1' : b1 ≤ 99) (hc1 : c1 ≤ 999) (hv1 : v1 ≤ 999)
    (hb2 : 1 ≤ b2) (hb2' : b2 ≤ 99) (hc2 : c2 ≤ 999) (hv2 : v2 ≤ 999) :
    (composite_key (b1 : Int) (c1 : Int) (v1 : Int) ≤
        composite_key (b2 : Int) (c2 : Int) (v2 : Int)) ↔
      (b1 < b2 ∨ (b1 = b2 ∧ (c1 < c2 ∨ (c1 = c2 ∧ v1 ≤ v2)))) := by
  rw [string_le_iff_not_lt, list_lt_iff_digitsVal_lt _ _
      (by rw [composite_key_length hb2' hc2 hv2, composite_key_length hb1' hc1 hv1])
      (composite_key_digits hb2' hc2 hv2) (composite_key_digits hb1' hc1 hv1),
    composite_key_val hb1' hc1 hv1, composite_key_val hb2' hc2 hv2]
  omega

/-- Witness for C6: key order agrees with tuple order on the spec's
scenario keys `43003016` and `43003018`. -/
theorem c6_key_order_witness :
    composite_key 43 3 16 ≤ composite_key 43 3 18 :=
  (c6_key_order 43 3 16 43 3 18 (by decide) (by decide) (by decide) (by decide)
    (by decide) (by decide) (by decide) (by decide)).mpr (by omega)

end BibleDb
